import Mathlib

/-!
Verification development for the finsights-ai screening engine and
valuation pipeline.

The Go sources are shallowly embedded as executable Lean definitions:

* `backend/packages/screener/screener.go` (filter translation / query
  building): `Value`, `FilterCondition`, `buildSQLCondition`,
  `buildQueryParts`, `sanitizeSort`, `isFieldInFundamentals`,
  `isFieldInPrices`.
* `backend/packages/screener/` valuation math (`CalculateSMA`,
  `CalculateIntrinsicValue`): floating-point numbers are modelled as
  rationals; Go's in-place `sort.Slice` is modelled by explicitly
  returning the final state of the caller's slice next to the result.
* `backend/packages/http/screener.go` (`GetScreenerData`): the
  pagination envelope, with the database query abstracted as a function
  parameter.
* nightly update orchestration (`RunNightlyUpdate` / `ProcessTicker`):
  per-ticker control flow, with provider data abstracted as a record of
  the facts the control flow branches on.
-/

namespace FinSights

/-! ### Filter values

Go's `FilterCondition.Value` has type `any`.  The values that actually
flow in are JSON numbers (`float64`), strings, concrete `[]string`
(from `FilterBuilder.TickerIn`), and `[]any` (JSON arrays decoded by
`encoding/json`).  We model this as a closed variant type; Go's
interface equality `value == 1.0` holds exactly for a numeric value
equal to 1. -/

inductive Value where
  | num (q : ℚ)
  | str (s : String)
  | strList (l : List String)
  | anyList (l : List Value)

/-- FilterCondition from `screener.go`: a `(field, operator, value)`
triple.  `ParseFilterFromJSON` stores the raw decoded JSON value here;
`encoding/json` decodes a JSON array into `[]any` (`anyList`), never
into `[]string` (`strList`). -/
structure FilterCondition where
  field : String
  operator : String
  value : Value

/-- ScreenerFilter from `screener.go`. -/
structure ScreenerFilter where
  conditions : List FilterCondition
  sort : String
  limit : Nat
  offset : Nat

/-- Go: `value == 1.0` (interface comparison against the float64 `1.0`;
true exactly for a numeric value equal to 1). -/
def isOne : Value → Bool
  | .num q => q = 1
  | _ => false

/-- isFieldInFundamentals from `screener.go`. -/
def isFieldInFundamentals (field : String) : Bool :=
  ["ticker", "pe_ratio", "roe", "earnings_outlook",
   "dividend_yield", "dividend_growth_5y", "intrinsic_value",
   "margin_of_safety"].contains field

/-- isFieldInPrices from `screener.go`. -/
def isFieldInPrices (field : String) : Bool :=
  ["close", "sma50", "sma200"].contains field

/-- Go's `strings.Repeat s n` for a non-negative count. -/
def strRepeat (s : String) : Nat → String
  | 0 => ""
  | n + 1 => s ++ strRepeat s n

/-- Result of `buildSQLCondition`.  The Go function either returns a
`(string, any)` pair (`ret`; an empty SQL string means the caller drops
the condition) or panics at runtime (`panicked`, for
`strings.Repeat` with a negative count). -/
inductive SQLCondResult where
  | ret (sql : String) (bound : Option Value)
  | panicked (msg : String)

/-- Tail of `buildSQLCondition`: alias resolution and the standard
operator switch.  Unknown fields are silently assumed to live in the
fundamentals table; unrecognized operators yield `("", nil)`, which the
caller silently drops. -/
def stdCondition (field op : String) (v : Value) : SQLCondResult :=
  let f := if isFieldInFundamentals field then "f." ++ field
           else if isFieldInPrices field then "p." ++ field
           else "f." ++ field
  if op = "=" ∨ op = ">" ∨ op = "<" ∨ op = ">=" ∨ op = "<=" ∨ op = "!=" then
    .ret (f ++ " " ++ op ++ " ?") (some v)
  else if op = "LIKE" then
    .ret (f ++ " LIKE ?") (some v)
  else
    .ret "" none

/-- Tail of `buildSQLCondition` after the computed-field `switch` fell
through: the `IN`/`[]string` expansion, then `stdCondition`.  For `IN`
with a `[]string` value, `strings.Repeat "?," (len(arr)-1)` panics when
the list is empty (negative repeat count); an `IN` whose value is not a
concrete `[]string` (e.g. the `[]any` that `encoding/json` produces)
falls through to the standard-operator switch, which does not handle
`IN` and silently yields `("", nil)`. -/
def buildSQLConditionTail (c : FilterCondition) : SQLCondResult :=
  match c.operator, c.value with
  | "IN", .strList arr =>
    if arr = [] then
      .panicked "strings: negative Repeat count"
    else
      let ph := strRepeat "?," (arr.length - 1) ++ "?"
      if isFieldInFundamentals c.field then
        .ret ("f." ++ c.field ++ " IN (" ++ ph ++ ")") (some (.strList arr))
      else
        .ret (c.field ++ " IN (" ++ ph ++ ")") (some (.strList arr))
  | op, v => stdCondition c.field op v

/-- buildSQLCondition from `screener.go`.  The computed-field `switch`
falls through to the generic paths (`buildSQLConditionTail`) when the
operator/value pair is not recognized. -/
def buildSQLCondition (c : FilterCondition) : SQLCondResult :=
  if c.field = "price_vs_sma50" ∧ c.operator = "<" ∧ isOne c.value then
    .ret "p.close < p.sma50" none
  else if c.field = "price_vs_sma50" ∧ c.operator = ">" ∧ isOne c.value then
    .ret "p.close > p.sma50" none
  else if c.field = "price_vs_sma200" ∧ c.operator = "<" ∧ isOne c.value then
    .ret "p.close < p.sma200" none
  else if c.field = "price_vs_sma200" ∧ c.operator = ">" ∧ isOne c.value then
    .ret "p.close > p.sma200" none
  else if c.field = "intrinsic_vs_price" ∧ c.operator = ">" ∧ isOne c.value then
    .ret "f.intrinsic_value > p.close" none
  else
    buildSQLConditionTail c

/-- buildQuery appends the elements of a `[]string` value one by one to
the argument list; every other value is appended as a single argument. -/
def flattenArg : Value → List Value
  | .strList arr => arr.map Value.str
  | v => [v]

/-- The condition/argument-collecting loop of `buildQuery`: conditions
with an empty SQL string are dropped; a panic in `buildSQLCondition`
aborts the whole build (modelled as `.error`). -/
def buildQueryParts : List FilterCondition → Except String (List String × List Value)
  | [] => .ok ([], [])
  | c :: cs =>
    match buildSQLCondition c with
    | .panicked msg => .error msg
    | .ret sql bound =>
      (buildQueryParts cs).map fun (ws, args) =>
        if sql = "" then (ws, args)
        else (sql :: ws,
              (match bound with
               | none => []
               | some v => flattenArg v) ++ args)

/-- The sort whitelist of `sanitizeSort`, as (input, emitted clause)
pairs. -/
def sortMap : List (String × String) :=
  [("pe_ratio.asc", "f.pe_ratio ASC"),
   ("pe_ratio.desc", "f.pe_ratio DESC"),
   ("roe.asc", "f.roe ASC"),
   ("roe.desc", "f.roe DESC"),
   ("close.asc", "p.close ASC"),
   ("close.desc", "p.close DESC"),
   ("dividend_yield.asc", "f.dividend_yield ASC"),
   ("dividend_yield.desc", "f.dividend_yield DESC"),
   ("margin_of_safety.asc", "f.margin_of_safety ASC"),
   ("margin_of_safety.desc", "f.margin_of_safety DESC"),
   ("ticker.asc", "f.ticker ASC"),
   ("ticker.desc", "f.ticker DESC")]

/-- The whitelisted sort keys. -/
def sortKeys : List String := sortMap.map Prod.fst

/-- sanitizeSort from `screener.go`: a lookup in the whitelist map,
falling back to `f.pe_ratio ASC`. -/
def sanitizeSort (sort : String) : String :=
  match sortMap.find? (fun p => p.1 = sort) with
  | some p => p.2
  | none => "f.pe_ratio ASC"

example : sanitizeSort "roe.desc" = "f.roe DESC" := by decide
example : sanitizeSort "evil" = "f.pe_ratio ASC" := by decide
example : buildSQLCondition ⟨"pe_ratio", "<", .num 15⟩ =
    .ret "f.pe_ratio < ?" (some (.num 15)) := rfl

/-! ### Valuation calculator (`sma.go` functions)

Closing prices are modelled as rationals.  Go stores dates as ISO
`YYYY-MM-DD` strings and compares them lexicographically; on such
strings lexicographic order coincides with chronological order, so we
model dates as naturals (e.g. 20240102), an order-isomorphic encoding
with kernel-computable comparisons.  `CalculateSMA` receives a Go
slice and sorts it **in place** with `sort.Slice`; we model this by
returning, next to the `(float64, error)` result, the final contents of
the caller's slice.  `sort.Slice` (an unstable comparison sort driven
by `data[i].Date > data[j].Date`) is modelled as `List.insertionSort`
under the reflexive closure of that comparator; on inputs whose dates
are pairwise distinct every comparison sort driven by this comparator
produces the same output. -/

structure EOD where
  date : Nat
  close : ℚ
deriving DecidableEq

/-- Sort order used by `CalculateSMA`: newest date first. -/
def eodGe (a b : EOD) : Prop := b.date ≤ a.date

instance : DecidableRel eodGe := fun a b =>
  inferInstanceAs (Decidable (b.date ≤ a.date))

instance : IsTotal EOD eodGe := ⟨fun a b => le_total b.date a.date⟩

instance : IsTrans EOD eodGe := ⟨fun _ _ _ h1 h2 => le_trans h2 h1⟩

/-- The date-descending sort performed inside `CalculateSMA`. -/
def smaSorted (data : List EOD) : List EOD := data.insertionSort eodGe

/-- CalculateSMA from `sma.go`.  Returns the `(float64, error)` result
together with the final state of the caller's slice (the Go code sorts
the slice in place before averaging, but only after the length check
passed). -/
def CalculateSMA (data : List EOD) (days : Nat) :
    Except String ℚ × List EOD :=
  if data.length < days then
    (.error "not enough data for SMA", data)
  else
    let sorted := smaSorted data
    (.ok ((((sorted.take days).map EOD.close).sum) / (days : ℚ)), sorted)

/-- CalculateIntrinsicValue from `sma.go`: a Graham-style fixed
formula.  A non-positive bond yield falls back to the historical
average 4.4 before the input validation runs. -/
def CalculateIntrinsicValue (eps growthRate bondYield : ℚ) :
    Except String ℚ :=
  let yield := if bondYield ≤ 0 then (4.4 : ℚ) else bondYield
  if eps ≤ 0 ∨ growthRate < 0 then
    .error "invalid EPS or growth rate"
  else
    .ok (eps * (8.5 + 2 * growthRate) * 4.4 / yield)

deriving instance DecidableEq for Except

example :
    (CalculateSMA [⟨20240101, 1⟩, ⟨20240102, 3⟩] 2).1 = .ok 2 := by
  have h : smaSorted [⟨20240101, 1⟩, ⟨20240102, 3⟩] =
      [⟨20240102, 3⟩, ⟨20240101, 1⟩] := by decide
  simp [CalculateSMA, h]
  norm_num

/-! ### HTTP screener handler (`http/screener.go`)

`GetScreenerData` validates `page ≥ 1` and `1 ≤ limit ≤ 1000`, then
queries with `limit + 1` rows and computes the response envelope.  The
database read (`ScreenerClient.ScreenStocks`) is abstracted as a
function from the final filter to a result list. -/

structure ScreenerResult where
  ticker : String
  pe : ℚ
  roe : ℚ
  close : ℚ
  sma50 : ℚ
  sma200 : ℚ
  earningsOutlook : String
  dividendYield : ℚ
  dividendGrowth5Y : ℚ
  intrinsicValue : ℚ
  marginOfSafety : ℚ
deriving DecidableEq

/-- The JSON response envelope of `GetScreenerData`. -/
structure ScreenerResponse where
  data : List ScreenerResult
  page : Nat
  limit : Nat
  totalCount : Nat
  hasMore : Bool

/-- The envelope computation of `GetScreenerData`, after parameter
validation succeeded (so `page ≥ 1` and `1 ≤ limit ≤ 1000`): query with
`limit + 1`, detect `hasMore`, trim, and report the trimmed page size
as `total_count`. -/
def getScreenerData (screen : ScreenerFilter → List ScreenerResult)
    (page limit : Nat) (conds : List FilterCondition) (sort : String) :
    ScreenerResponse :=
  let offset := (page - 1) * limit
  let results := screen { conditions := conds, sort := sort,
                          limit := limit + 1, offset := offset }
  let finalResults := if limit < results.length then results.take limit
                      else results
  { data := finalResults
    page := page
    limit := limit
    totalCount := finalResults.length
    hasMore := decide (limit < results.length) }

/-! ### Nightly update orchestration (`nightly.go` / `process_ticker.go`)

`ProcessTicker` returns an `error` for most per-ticker failures, which
`RunNightlyUpdate` logs before continuing with the next ticker — but
when the fundamentals payload contains no balance-sheet period
(`GetLatestPeriod` returns the empty string) it calls `log.Fatal`,
which terminates the whole process.  We model the per-ticker provider
data as the record of facts `ProcessTicker` branches on, and the
observable outcome of one ticker as `ok` / `err` (returned error) /
`fatal` (process exit). -/

inductive StepOutcome where
  | ok
  | err (msg : String)
  | fatal (msg : String)
deriving DecidableEq

/-- The provider-facing facts that determine `ProcessTicker`'s control
flow for one ticker. -/
structure TickerData where
  eodOk : Bool
  prices : List EOD
  fundamentalsOk : Bool
  hasBalancePeriod : Bool
  dividendsOk : Bool
deriving DecidableEq

/-- Control flow of `ProcessTicker`, in source order: EOD fetch failure
or a history shorter than 200 points returns an error; a fundamentals
fetch failure returns an error; an empty latest balance-sheet period
hits `log.Fatal("No financial data available")`; a dividends fetch
failure returns an error; otherwise the ticker is processed. -/
def processTicker (d : TickerData) : StepOutcome :=
  if !d.eodOk ∨ d.prices.length < 200 then .err "not enough EOD data"
  else if !d.fundamentalsOk then .err "error getting fundamentals"
  else if !d.hasBalancePeriod then .fatal "No financial data available"
  else if !d.dividendsOk then .err "error getting dividends"
  else .ok

/-- The ticker loop of `RunNightlyUpdate`, observed as the list of
tickers actually attempted: a returned error is logged and the loop
continues, but `log.Fatal` terminates the process, so the remaining
tickers are never attempted. -/
def attemptLoop (run : String → StepOutcome) : List String → List String
  | [] => []
  | t :: ts =>
    match run t with
    | .fatal _ => [t]
    | _ => t :: attemptLoop run ts

/-- RunNightlyUpdate from `nightly.go`: skipped entirely on weekends,
otherwise the sequential ticker loop. -/
def runNightlyUpdate (isWeekend : Bool) (run : String → StepOutcome)
    (tickers : List String) : List String :=
  if isWeekend then [] else attemptLoop run tickers

/-! ### Helper lemmas about the in-place sort of `CalculateSMA` -/

/-- Strict date-descending order, used to show that a date-descending
sort of a duplicate-free series is unique. -/
def eodGt (a b : EOD) : Prop := b.date < a.date

instance : IsAntisymm EOD eodGt :=
  ⟨fun _ _ h1 h2 => absurd (lt_trans h1 h2) (lt_irrefl _)⟩

lemma smaSorted_perm (data : List EOD) : List.Perm (smaSorted data) data :=
  List.perm_insertionSort _ _

lemma smaSorted_sorted (data : List EOD) :
    List.Sorted eodGe (smaSorted data) :=
  List.sorted_insertionSort _ _

lemma smaSorted_length (data : List EOD) :
    (smaSorted data).length = data.length :=
  (smaSorted_perm data).length_eq

/-- On a series whose dates are pairwise distinct, the date-descending
sort is strictly descending. -/
lemma smaSorted_strict (data : List EOD)
    (hnd : (data.map EOD.date).Nodup) :
    (smaSorted data).Pairwise eodGt := by
  have hnd1 : ((smaSorted data).map EOD.date).Nodup :=
    ((smaSorted_perm data).map EOD.date).nodup_iff.mpr hnd
  have hne : (smaSorted data).Pairwise (fun a b => a.date ≠ b.date) :=
    List.pairwise_map.mp hnd1
  exact ((smaSorted_sorted data).and hne).imp
    (fun h => lt_of_le_of_ne h.1 (fun e => h.2 e.symm))

/-- Permutations of a duplicate-date-free series have the same
date-descending sort. -/
lemma smaSorted_eq_of_perm {l1 l2 : List EOD} (h : List.Perm l1 l2)
    (hnd : (l1.map EOD.date).Nodup) : smaSorted l1 = smaSorted l2 :=
  List.eq_of_perm_of_sorted (r := eodGt)
    ((smaSorted_perm l1).trans (h.trans (smaSorted_perm l2).symm))
    (smaSorted_strict l1 hnd)
    (smaSorted_strict l2 (((h.map EOD.date).nodup_iff).mp hnd))

/-! ### Helper lemmas about placeholder expansion -/

/-- Number of `?` placeholders in a SQL fragment. -/
def countQ (s : String) : Nat := s.data.count '?'

lemma countQ_append (a b : String) : countQ (a ++ b) = countQ a + countQ b := by
  simp [countQ, String.data_append, List.count_append]

lemma countQ_strRepeat (n : Nat) :
    countQ (strRepeat "?," n ++ "?") = n + 1 := by
  induction n with
  | zero => decide
  | succ k ih =>
    have hsplit : strRepeat "?," (k + 1) ++ "?" =
        "?," ++ (strRepeat "?," k ++ "?") := by
      simp [strRepeat, String.append_assoc]
    rw [hsplit, countQ_append, ih, show countQ "?," = 1 from by decide]
    omega

lemma in_sql_ne_empty (a b : String) : a ++ " IN (" ++ b ++ ")" ≠ "" := by
  intro h
  have hlen := congrArg String.length h
  rw [String.length_append, String.length_append, String.length_append] at hlen
  rw [show (" IN (" : String).length = 5 from rfl,
      show ((")") : String).length = 1 from rfl,
      show (("") : String).length = 0 from rfl] at hlen
  omega

/-- Behaviour of the `buildQuery` collection loop on a single emitted
condition. -/
lemma buildQueryParts_singleton (c : FilterCondition) (sql : String)
    (bound : Option Value) (h : buildSQLCondition c = .ret sql bound)
    (hne : sql ≠ "") :
    buildQueryParts [c] = .ok ([sql], bound.elim [] flattenArg) := by
  unfold buildQueryParts
  rw [h]
  show Except.map _ (buildQueryParts []) = _
  unfold buildQueryParts
  cases bound <;> simp [Except.map, hne]

/-- With operator `IN`, none of the computed-field special cases of
`buildSQLCondition` applies, whatever the field and value. -/
lemma buildSQLCondition_in (f : String) (v : Value) :
    buildSQLCondition ⟨f, "IN", v⟩ = buildSQLConditionTail ⟨f, "IN", v⟩ := by
  unfold buildSQLCondition
  split_ifs with h1 h2 h3 h4 h5
  · simp at h1
  · simp at h2
  · simp at h3
  · simp at h4
  · simp at h5
  · rfl

/-! ### Claim theorems -/

/-- C1: evaluation of the code at a field that is in neither field
list.  The claim — and §4.1/§9 of the spec — require an explicit
"unmapped field" error; `buildSQLCondition` instead silently prefixes
the unknown field with the fundamentals alias `f.` and binds the value
as a parameter, and `buildQuery` emits the resulting predicate. -/
theorem c1_unknown_field_silently_bound :
    isFieldInFundamentals "not_a_column" = false
  ∧ isFieldInPrices "not_a_column" = false
  ∧ buildSQLCondition ⟨"not_a_column", "=", .num 42⟩ =
      .ret "f.not_a_column = ?" (some (.num 42))
  ∧ buildQueryParts [⟨"not_a_column", "=", .num 42⟩] =
      .ok (["f.not_a_column = ?"], [.num 42]) :=
  ⟨rfl, rfl, rfl, rfl⟩

/-- C2: evaluation of the code at computed-field conditions with
unrecognized operator/value pairs.  The claim — and §4.2/§8 of the
spec — require a deterministic translation error; instead the `switch`
falls through: with a standard operator the computed-field name is
silently bound as a fundamentals column (`f.price_vs_sma50 = ?`,
`f.price_vs_sma200 < ?` for value 2), and with an unknown operator the
condition is silently dropped (`("", nil)`), again without error. -/
theorem c2_computed_field_not_rejected :
    buildSQLCondition ⟨"price_vs_sma50", "=", .num 1⟩ =
      .ret "f.price_vs_sma50 = ?" (some (.num 1))
  ∧ buildSQLCondition ⟨"price_vs_sma200", "<", .num 2⟩ =
      .ret "f.price_vs_sma200 < ?" (some (.num 2))
  ∧ buildSQLCondition ⟨"intrinsic_vs_price", "<", .num 1⟩ =
      .ret "f.intrinsic_vs_price < ?" (some (.num 1))
  ∧ buildSQLCondition ⟨"price_vs_sma50", "BETWEEN", .num 1⟩ = .ret "" none
  ∧ buildQueryParts [⟨"price_vs_sma50", "BETWEEN", .num 1⟩] = .ok ([], []) :=
  ⟨rfl, rfl, rfl, rfl, rfl⟩

/-- C3: the three recognized computed-field conditions translate to
direct column-to-column predicates with no bound parameter, and
contribute no entry to the final bound-argument list. -/
theorem c3_computed_field_translation :
    buildSQLCondition ⟨"price_vs_sma50", "<", .num 1⟩ =
      .ret "p.close < p.sma50" none
  ∧ buildSQLCondition ⟨"price_vs_sma200", "<", .num 1⟩ =
      .ret "p.close < p.sma200" none
  ∧ buildSQLCondition ⟨"intrinsic_vs_price", ">", .num 1⟩ =
      .ret "f.intrinsic_value > p.close" none
  ∧ buildQueryParts
      [⟨"price_vs_sma50", "<", .num 1⟩,
       ⟨"price_vs_sma200", "<", .num 1⟩,
       ⟨"intrinsic_vs_price", ">", .num 1⟩] =
      .ok (["p.close < p.sma50", "p.close < p.sma200",
            "f.intrinsic_value > p.close"], []) :=
  ⟨rfl, rfl, rfl, rfl⟩

/-- C10: `buildSQLCondition` on `IN` conditions, for every field name:
an empty `[]string` hits `strings.Repeat` with count -1 and panics;
a non-empty `[]string` succeeds with one `?` placeholder per element
and the elements bound in list order; a `[]any` value (what JSON
parsing produces) never reaches the `IN` expansion and is silently
dropped by the standard-operator switch. -/
theorem c10_in_translation (f : String) (arr : List String) (l : List Value) :
    buildSQLCondition ⟨f, "IN", .strList []⟩ =
      .panicked "strings: negative Repeat count"
  ∧ (arr ≠ [] →
      buildSQLCondition ⟨f, "IN", .strList arr⟩ =
        .ret ((if isFieldInFundamentals f then "f." ++ f else f) ++
              " IN (" ++ (strRepeat "?," (arr.length - 1) ++ "?") ++ ")")
          (some (.strList arr))
      ∧ countQ (strRepeat "?," (arr.length - 1) ++ "?") = arr.length
      ∧ buildQueryParts [⟨f, "IN", .strList arr⟩] =
          .ok ([(if isFieldInFundamentals f then "f." ++ f else f) ++
                " IN (" ++ (strRepeat "?," (arr.length - 1) ++ "?") ++ ")"],
               arr.map Value.str))
  ∧ buildSQLCondition ⟨f, "IN", .anyList l⟩ = .ret "" none := by
  have hpanic : buildSQLCondition ⟨f, "IN", .strList []⟩ =
      .panicked "strings: negative Repeat count" := by
    rw [buildSQLCondition_in]; rfl
  have hany : buildSQLCondition ⟨f, "IN", .anyList l⟩ = .ret "" none := by
    rw [buildSQLCondition_in]; rfl
  refine ⟨hpanic, fun harr => ?_, hany⟩
  have hret : buildSQLCondition ⟨f, "IN", .strList arr⟩ =
      .ret ((if isFieldInFundamentals f then "f." ++ f else f) ++
            " IN (" ++ (strRepeat "?," (arr.length - 1) ++ "?") ++ ")")
        (some (.strList arr)) := by
    rw [buildSQLCondition_in]
    show (if arr = [] then _ else _) = _
    rw [if_neg harr]
    by_cases hf : isFieldInFundamentals f <;> simp [hf, String.append_assoc]
  refine ⟨hret, ?_, ?_⟩
  · rw [countQ_strRepeat]
    have := List.length_pos.mpr harr
    omega
  · exact buildQueryParts_singleton _ _ _ hret (in_sql_ne_empty _ _)

/-- C10 witness: the general `IN` theorem applied to a concrete
two-element ticker list. -/
theorem c10_witness :
    (["AAPL", "MSFT"] : List String) ≠ []
  ∧ buildSQLCondition ⟨"ticker", "IN", .strList ["AAPL", "MSFT"]⟩ =
      .ret "f.ticker IN (?,?)" (some (.strList ["AAPL", "MSFT"]))
  ∧ countQ "?,?" = 2
  ∧ buildQueryParts [⟨"ticker", "IN", .strList ["AAPL", "MSFT"]⟩] =
      .ok (["f.ticker IN (?,?)"], [.str "AAPL", .str "MSFT"]) := by
  have h := (c10_in_translation "ticker" ["AAPL", "MSFT"] []).2.1 (by simp)
  refine ⟨by simp, ?_, ?_, ?_⟩
  · rw [h.1]; rfl
  · exact h.2.1
  · rw [h.2.2]; rfl

/-- C4 counterexample: `CalculateSMA` is not invariant under all
permutations of the input — two points sharing a date can swap in and
out of the averaged window.  Here the two orderings of the same
two-element series give SMA(1) = 1 and SMA(1) = 2 respectively. -/
theorem c4_perm_counterexample :
    List.Perm [(⟨20240102, 1⟩ : EOD), ⟨20240102, 2⟩]
      [⟨20240102, 2⟩, ⟨20240102, 1⟩]
  ∧ (CalculateSMA [⟨20240102, 1⟩, ⟨20240102, 2⟩] 1).1 ≠
      (CalculateSMA [⟨20240102, 2⟩, ⟨20240102, 1⟩] 1).1 := by
  constructor
  · exact List.Perm.swap _ _ _
  · have h1 : smaSorted [⟨20240102, 1⟩, ⟨20240102, 2⟩] =
        [⟨20240102, 1⟩, ⟨20240102, 2⟩] := by decide
    have h2 : smaSorted [⟨20240102, 2⟩, ⟨20240102, 1⟩] =
        [⟨20240102, 2⟩, ⟨20240102, 1⟩] := by decide
    simp [CalculateSMA, h1, h2]

/-- C4 (amended): `CalculateSMA` fails with the "not enough data" error
exactly when the series has fewer than N points; on at least N points
it returns the arithmetic mean of the closing prices of N points that
dominate the rest by date (the N most recent); and the result is
invariant under permutations of the input *provided the dates are
pairwise distinct*. -/
theorem c4_sma_correct (data : List EOD) (days : Nat) :
    ((CalculateSMA data days).1 = .error "not enough data for SMA" ↔
      data.length < days)
  ∧ (days ≤ data.length →
      ∃ u v : List EOD, List.Perm data (u ++ v) ∧ u.length = days ∧
        (∀ a ∈ u, ∀ b ∈ v, b.date ≤ a.date) ∧
        (CalculateSMA data days).1 = .ok ((u.map EOD.close).sum / (days : ℚ)))
  ∧ (∀ l2, List.Perm data l2 → (data.map EOD.date).Nodup →
      (CalculateSMA l2 days).1 = (CalculateSMA data days).1) := by
  refine ⟨?_, fun hle => ?_, fun l2 hperm hnd => ?_⟩
  · by_cases h : data.length < days <;> simp [CalculateSMA, h]
  · have hnl : ¬ data.length < days := not_lt.mpr hle
    refine ⟨(smaSorted data).take days, (smaSorted data).drop days,
      ?_, ?_, ?_, ?_⟩
    · rw [List.take_append_drop]
      exact (smaSorted_perm data).symm
    · rw [List.length_take, smaSorted_length]
      omega
    · have hs : List.Pairwise eodGe (smaSorted data) := smaSorted_sorted data
      rw [← List.take_append_drop days (smaSorted data)] at hs
      exact fun a ha b hb => (List.pairwise_append.mp hs).2.2 a ha b hb
    · simp [CalculateSMA, hnl]
  · have hlen : l2.length = data.length := hperm.length_eq.symm
    by_cases h : data.length < days
    · simp [CalculateSMA, hlen, h]
    · have hss := smaSorted_eq_of_perm hperm hnd
      simp [CalculateSMA, hlen, h, ← hss]

/-- C4 witness: the amended theorem applied to a concrete two-point
series — too little data for SMA(3), and order-invariance of SMA(1)
for distinct dates. -/
theorem c4_witness :
    (CalculateSMA [⟨20240101, 1⟩, ⟨20240102, 3⟩] 3).1 =
      .error "not enough data for SMA"
  ∧ (CalculateSMA [⟨20240101, 1⟩, ⟨20240102, 3⟩] 1).1 =
      (CalculateSMA [⟨20240102, 3⟩, ⟨20240101, 1⟩] 1).1 := by
  constructor
  · exact (c4_sma_correct [⟨20240101, 1⟩, ⟨20240102, 3⟩] 3).1.mpr (by decide)
  · exact ((c4_sma_correct [⟨20240101, 1⟩, ⟨20240102, 3⟩] 1).2.2
      [⟨20240102, 3⟩, ⟨20240101, 1⟩] (by decide) (by decide)).symm

/-- C9 counterexample: `CalculateSMA` sorts the caller's slice in
place; after the call the series is in date-descending order, not in
its original order. -/
theorem c9_inplace_sort_counterexample :
    (CalculateSMA [⟨20240101, 1⟩, ⟨20240102, 2⟩] 1).2 ≠
      [⟨20240101, 1⟩, ⟨20240102, 2⟩] := by
  decide

/-- C9 (amended): `CalculateSMA` leaves the caller's series a
permutation of the original — untouched on the insufficient-data error
path, and sorted by date descending otherwise — rather than
element-wise unchanged. -/
theorem c9_sma_state (data : List EOD) (days : Nat) :
    List.Perm (CalculateSMA data days).2 data
  ∧ (data.length < days → (CalculateSMA data days).2 = data)
  ∧ (days ≤ data.length → (CalculateSMA data days).2 = smaSorted data) := by
  refine ⟨?_, fun h => ?_, fun h => ?_⟩
  · unfold CalculateSMA
    split_ifs with hc
    · exact List.Perm.refl data
    · simpa using smaSorted_perm data
  · simp [CalculateSMA, h]
  · simp [CalculateSMA, not_lt.mpr h]

/-- C9 witness: the amended theorem applied to concrete series for both
the error path and the sorted path. -/
theorem c9_witness :
    (CalculateSMA [⟨20240101, 1⟩] 5).2 = [⟨20240101, 1⟩]
  ∧ (CalculateSMA [⟨20240101, 1⟩, ⟨20240102, 2⟩] 1).2 =
      smaSorted [⟨20240101, 1⟩, ⟨20240102, 2⟩] :=
  ⟨(c9_sma_state _ 5).2.1 (by decide), (c9_sma_state _ 1).2.2 (by decide)⟩

/-- C5: for EPS > 0, growth rate ≥ 0 and positive current yield,
`CalculateIntrinsicValue` returns exactly
`EPS * (8.5 + 2 * growthRate) * 4.4 / currentYield`; for EPS ≤ 0 or a
negative growth rate it returns the invalid-input error. -/
theorem c5_intrinsic_value (eps g y : ℚ) :
    (0 < eps → 0 ≤ g → 0 < y →
      CalculateIntrinsicValue eps g y =
        .ok (eps * (8.5 + 2 * g) * 4.4 / y))
  ∧ (eps ≤ 0 ∨ g < 0 →
      CalculateIntrinsicValue eps g y =
        .error "invalid EPS or growth rate") := by
  constructor
  · intro he hg hy
    have h1 : ¬ y ≤ 0 := not_le.mpr hy
    have h2 : ¬(eps ≤ 0 ∨ g < 0) := by
      rintro (h | h)
      · exact absurd he (not_lt.mpr h)
      · exact absurd hg (not_le.mpr h)
    simp [CalculateIntrinsicValue, h1, h2]
  · intro h
    simp [CalculateIntrinsicValue, h]

/-- C5 witness: the theorem applied at EPS 2, growth rate 1/10, yield 4
(value path) and at EPS -1 (error path). -/
theorem c5_witness :
    (0 : ℚ) < 2 ∧ (0 : ℚ) ≤ 1/10 ∧ (0 : ℚ) < 4
  ∧ CalculateIntrinsicValue 2 (1/10) 4 =
      .ok (2 * (8.5 + 2 * (1/10)) * 4.4 / 4)
  ∧ CalculateIntrinsicValue (-1) (1/10) 4 =
      .error "invalid EPS or growth rate" := by
  refine ⟨by norm_num, by norm_num, by norm_num, ?_, ?_⟩
  · exact (c5_intrinsic_value 2 (1/10) 4).1 (by norm_num) (by norm_num)
      (by norm_num)
  · exact (c5_intrinsic_value (-1) (1/10) 4).2 (Or.inl (by norm_num))

/-- C6: `sanitizeSort` maps exactly the twelve whitelisted
`<field>.<direction>` strings to their fully qualified
`<alias>.<column> ASC|DESC` clauses, and every other string to the
fixed default `f.pe_ratio ASC`. -/
theorem c6_sanitize_sort :
    (∀ p ∈ sortMap, sanitizeSort p.1 = p.2)
  ∧ (∀ s, s ∉ sortKeys → sanitizeSort s = "f.pe_ratio ASC") := by
  constructor
  · decide
  · intro s hs
    have hfind : sortMap.find? (fun p => p.1 = s) = none := by
      rw [List.find?_eq_none]
      intro p hp
      simp only [decide_eq_true_eq]
      intro he
      exact hs (List.mem_map.mpr ⟨p, hp, he⟩)
    unfold sanitizeSort
    rw [hfind]

/-- C6 witness: one whitelisted key, and the empty string falling back
to the default. -/
theorem c6_witness :
    ("ticker.desc", "f.ticker DESC") ∈ sortMap
  ∧ sanitizeSort "ticker.desc" = "f.ticker DESC"
  ∧ ("" : String) ∉ sortKeys
  ∧ sanitizeSort "" = "f.pe_ratio ASC" := by
  refine ⟨by decide, ?_, by decide, ?_⟩
  · exact c6_sanitize_sort.1 ("ticker.desc", "f.ticker DESC") (by decide)
  · exact c6_sanitize_sort.2 "" (by decide)

/-- C7: for a validated request the handler queries with `limit + 1`;
`has_more` holds exactly when more than `limit` rows came back, in
which case the page is trimmed to exactly `limit` rows; `total_count`
is the size of the returned page. -/
theorem c7_pagination (screen : ScreenerFilter → List ScreenerResult)
    (page limit : Nat) (conds : List FilterCondition) (sort : String)
    (_hp : 1 ≤ page) (_hl1 : 1 ≤ limit) (_hl2 : limit ≤ 1000) :
    (getScreenerData screen page limit conds sort).hasMore =
      decide (limit <
        (screen { conditions := conds, sort := sort, limit := limit + 1,
                  offset := (page - 1) * limit }).length)
  ∧ (getScreenerData screen page limit conds sort).data =
      (if limit < (screen { conditions := conds, sort := sort,
                            limit := limit + 1,
                            offset := (page - 1) * limit }).length
       then (screen { conditions := conds, sort := sort,
                      limit := limit + 1,
                      offset := (page - 1) * limit }).take limit
       else screen { conditions := conds, sort := sort, limit := limit + 1,
                     offset := (page - 1) * limit })
  ∧ (limit < (screen { conditions := conds, sort := sort,
                       limit := limit + 1,
                       offset := (page - 1) * limit }).length →
      (getScreenerData screen page limit conds sort).data.length = limit)
  ∧ (getScreenerData screen page limit conds sort).totalCount =
      (getScreenerData screen page limit conds sort).data.length
  ∧ (getScreenerData screen page limit conds sort).page = page
  ∧ (getScreenerData screen page limit conds sort).limit = limit := by
  refine ⟨rfl, rfl, fun h => ?_, rfl, rfl, rfl⟩
  simp only [getScreenerData, if_pos h, List.length_take]
  omega

/-- A sample row used to exercise the pagination envelope. -/
def sampleResult : ScreenerResult :=
  ⟨"AAPL", 14.5, 0.25, 180.5, 0, 0, "positive", 0, 0, 0, 0⟩

/-- C7 witness: the pagination theorem applied to a query that returns
3 rows against `limit = 1`. -/
theorem c7_witness :
    (getScreenerData (fun _ => List.replicate 3 sampleResult)
      1 1 [] "pe_ratio.asc").hasMore = true
  ∧ (getScreenerData (fun _ => List.replicate 3 sampleResult)
      1 1 [] "pe_ratio.asc").data.length = 1
  ∧ (getScreenerData (fun _ => List.replicate 3 sampleResult)
      1 1 [] "pe_ratio.asc").totalCount =
      (getScreenerData (fun _ => List.replicate 3 sampleResult)
        1 1 [] "pe_ratio.asc").data.length := by
  have h := c7_pagination (fun _ => List.replicate 3 sampleResult)
    1 1 [] "pe_ratio.asc" (by decide) (by decide) (by decide)
  refine ⟨?_, ?_, h.2.2.2.1⟩
  · rw [h.1]; rfl
  · exact h.2.2.1 (by simp)

/-- Per-ticker data that passes every step of `ProcessTicker`. -/
def goodTickerData : TickerData :=
  { eodOk := true
    prices := List.replicate 200 ⟨20240101, 1⟩
    fundamentalsOk := true
    hasBalancePeriod := true
    dividendsOk := true }

/-- Per-ticker data whose fundamentals payload has no balance-sheet
period: `GetLatestPeriod` returns `""` and `ProcessTicker` hits
`log.Fatal`. -/
def noFinancialsData : TickerData :=
  { goodTickerData with hasBalancePeriod := false }

/-- A universe in which exactly the ticker XXXX has no balance-sheet
period. -/
def fatalRun (t : String) : StepOutcome :=
  processTicker (if t = "XXXX" then noFinancialsData else goodTickerData)

/-- A universe in which exactly the ticker ERR fails with a returned
error (fundamentals fetch failure). -/
def errRun (t : String) : StepOutcome :=
  processTicker (if t = "ERR" then
    { goodTickerData with fundamentalsOk := false } else goodTickerData)

set_option maxRecDepth 4000 in
/-- C8: evaluation of the nightly loop at a concrete universe.  A
ticker failure that is *returned* as an error is logged and skipped, so
the whole universe is attempted — but a ticker whose fundamentals have
no balance-sheet period ("missing data") hits `log.Fatal` inside
`ProcessTicker`, terminating the process: the remaining tickers are
never attempted, contradicting the claim. -/
theorem c8_fatal_aborts_batch :
    runNightlyUpdate false errRun ["AAPL", "ERR", "MSFT"] =
      ["AAPL", "ERR", "MSFT"]
  ∧ processTicker noFinancialsData = .fatal "No financial data available"
  ∧ runNightlyUpdate false fatalRun ["AAPL", "XXXX", "MSFT"] =
      ["AAPL", "XXXX"]
  ∧ "MSFT" ∉ runNightlyUpdate false fatalRun ["AAPL", "XXXX", "MSFT"] := by
  decide

end FinSights
